import Mathlib

/-!
Shallow embedding of the Juju cloud-provider Manager from
`cluster-autoscaler/cloudprovider/juju/juju_manager.go` (the latest revision:
the variant carrying a Kubernetes client, a `hostname` field and a
`providerID` field, which is the variant instantiated by
`juju_cloud_provider.go` via `NewManager(jujuAPI, kubeClient, model,
application)`).

Go maps are modelled as association lists `List (String × α)`; Go's
zero-value-on-missing-key semantics is made explicit in the lookup helpers.
The external Juju client and the Kubernetes node lookup are modelled as
explicit inputs: each `Status` call's outcome is an `Except String FullStatus`
argument, the Kubernetes `Nodes().Get` outcome is a function
`String → Option String` from hostname to provider ID (`none` models a
lookup error, which the Go code only logs), and the `DestroyUnits` outcome is
an `Option String` (the error, if any).  Manager methods are state-passing
functions on the unit map; alongside the new map they return the error the Go
method would return, and `removeUnit` additionally records the argument lists
of the `DestroyUnits` calls it issued.
-/

namespace JujuAutoscaler

/-- `cloudprovider.InstanceState`: the three lifecycle phases used by the
Manager (`InstanceCreating`, `InstanceRunning`, `InstanceDeleting`). -/
inductive InstanceState where
  | InstanceCreating
  | InstanceRunning
  | InstanceDeleting
deriving DecidableEq, Repr

/-- `params.StatusInfo`, restricted to the one field the Manager reads. -/
structure StatusInfo where
  status : String
deriving DecidableEq, Repr

/-- `params.UnitStatus`, restricted to the fields the Manager reads:
`AgentStatus`, `WorkloadStatus` and `Machine`. -/
structure UnitStatus where
  agentStatus : StatusInfo
  workloadStatus : StatusInfo
  machine : String
deriving DecidableEq, Repr

/-- `params.MachineStatus`, restricted to the `Hostname` field. -/
structure MachineStatus where
  hostname : String
deriving DecidableEq, Repr

/-- `params.ApplicationStatus`, restricted to the `Units` map. -/
structure ApplicationStatus where
  units : List (String × UnitStatus)
deriving DecidableEq, Repr

/-- `params.FullStatus`, restricted to the `Applications` and `Machines`
maps: one snapshot returned by the Juju client's `Status` call. -/
structure FullStatus where
  applications : List (String × ApplicationStatus)
  machines : List (String × MachineStatus)
deriving DecidableEq, Repr

/-- The Manager's `Unit` struct: state, Juju unit name, resolved hostname,
last observed status, and Kubernetes provider ID. -/
structure Unit where
  state : InstanceState
  jujuName : String
  hostname : String
  status : UnitStatus
  providerID : String
deriving DecidableEq, Repr

/-- The Manager's `units` field, a Go map from unit name to `*Unit`,
modelled as an association list. -/
abbrev UnitMap := List (String × Unit)

/-- First-match association-list lookup: `m[k]` with presence test
(`v, ok := m[k]`). -/
def lookupAssoc {α : Type} (m : List (String × α)) (k : String) : Option α :=
  match m with
  | [] => none
  | (k', v) :: rest => if k' = k then some v else lookupAssoc rest k

/-- Go map assignment `m[k] = v`: replace the entry for `k` in place if
present, otherwise add a fresh entry. -/
def setAssoc {α : Type} (m : List (String × α)) (k : String) (v : α) :
    List (String × α) :=
  match m with
  | [] => [(k, v)]
  | (k', v') :: rest => if k' = k then (k, v) :: rest else (k', v') :: setAssoc rest k v

/-- `fullStatus.Applications[app].Units` with Go's zero-value semantics:
a missing application yields an empty unit map. -/
def FullStatus.appUnits (fs : FullStatus) (app : String) : List (String × UnitStatus) :=
  match lookupAssoc fs.applications app with
  | some a => a.units
  | none => []

/-- `fullStatus.Machines[machine].Hostname` with Go's zero-value semantics:
a missing machine yields the empty hostname. -/
def FullStatus.machineHostname (fs : FullStatus) (machine : String) : String :=
  match lookupAssoc fs.machines machine with
  | some ms => ms.hostname
  | none => ""

/-- The health test the Manager applies throughout:
`unitStatus.WorkloadStatus.Status == "active" && unitStatus.AgentStatus.Status == "idle"`. -/
def isActiveIdle (us : UnitStatus) : Bool :=
  us.workloadStatus.status = "active" ∧ us.agentStatus.status = "idle"

/-- The provider-ID resolution step at the top of `refresh`'s first loop:
skip the Kubernetes lookup when the hostname is empty, and leave the
provider ID empty when the node lookup fails (the Go code only logs the
error). -/
def resolveProviderID (kube : String → Option String) (hostname : String) : String :=
  if hostname = "" then ""
  else
    match kube hostname with
    | some pid => pid
    | none => ""

/-- The field update `refresh` applies to an already-tracked unit:
`status`, `hostname` and `providerID` are overwritten, everything else kept. -/
def updatedUnit (u : Unit) (us : UnitStatus) (hn pid : String) : Unit :=
  { u with status := us, hostname := hn, providerID := pid }

/-- The struct literal `refresh` inserts for an externally-added unit
observed active/idle: phase `InstanceRunning` directly. -/
def freshRunningUnit (k : String) (us : UnitStatus) (hn pid : String) : Unit :=
  { state := .InstanceRunning, jujuName := k, hostname := hn, status := us,
    providerID := pid }

/-- One iteration of `refresh`'s first loop, for the snapshot entry `e`:
resolve hostname and provider ID, then either update the tracked unit's
fields in place or, for an untracked unit that is active/idle, insert it as
a fresh `InstanceRunning` unit. -/
def refreshObserve (fs : FullStatus) (kube : String → Option String)
    (m : UnitMap) (e : String × UnitStatus) : UnitMap :=
  let hn := fs.machineHostname e.2.machine
  let pid := resolveProviderID kube hn
  match lookupAssoc m e.1 with
  | some u => setAssoc m e.1 (updatedUnit u e.2 hn pid)
  | none =>
    if isActiveIdle e.2 then setAssoc m e.1 (freshRunningUnit e.1 e.2 hn pid) else m

/-- `refresh`'s first loop: fold `refreshObserve` over the snapshot's unit
entries. -/
def refreshPass1 (fs : FullStatus) (kube : String → Option String)
    (entries : List (String × UnitStatus)) (m : UnitMap) : UnitMap :=
  match entries with
  | [] => m
  | e :: rest => refreshPass1 fs kube rest (refreshObserve fs kube m e)

/-- The body of one iteration of `refresh`'s second loop, acting on the unit
tracked under key `k`: a tracked unit absent from the snapshot is marked
`InstanceDeleting`; then an `InstanceCreating` unit whose observed status is
active/idle is promoted to `InstanceRunning`, and an `InstanceDeleting` unit
is deleted from the map (`none`). -/
def refreshPass2Unit (fs : FullStatus) (app : String) (k : String) (u0 : Unit) :
    Option Unit :=
  let u := if (lookupAssoc (fs.appUnits app) k).isNone then
             { u0 with state := .InstanceDeleting }
           else u0
  match u.state with
  | .InstanceCreating =>
      some (if isActiveIdle u.status then { u with state := .InstanceRunning } else u)
  | .InstanceRunning => some u
  | .InstanceDeleting => none

/-- One iteration of `refresh`'s second loop as an entry transformer: the
key is kept, the tracked unit is transformed or removed by
`refreshPass2Unit`. -/
def refreshPass2Entry (fs : FullStatus) (app : String) (e : String × Unit) :
    Option (String × Unit) :=
  (refreshPass2Unit fs app e.1 e.2).map (fun u => (e.1, u))

/-- The body of `refresh` after a successful `Status` call: first loop, then
second loop. -/
def refreshOk (kube : String → Option String) (app : String) (fs : FullStatus)
    (m : UnitMap) : UnitMap :=
  (refreshPass1 fs kube (fs.appUnits app) m).filterMap (refreshPass2Entry fs app)

/-- `Manager.refresh` (the `Reconcile` operation): on a failed `Status` call
the map is returned untouched together with the error; otherwise the two
reconciliation loops run and no error is returned. -/
def refresh (kube : String → Option String) (app : String) (m : UnitMap)
    (statusRes : Except String FullStatus) : UnitMap × Option String :=
  match statusRes with
  | .error e => (m, some e)
  | .ok fs => (refreshOk kube app fs m, none)

/-- The per-unit insertion in `NewManager`'s constructor loop: phase
`InstanceRunning` when the unit is active/idle, `InstanceCreating` otherwise;
hostname taken from the machine map, provider ID left at its zero value. -/
def initialUnit (fs : FullStatus) (k : String) (us : UnitStatus) : Unit :=
  { state := if isActiveIdle us then .InstanceRunning else .InstanceCreating,
    jujuName := k, hostname := fs.machineHostname us.machine, status := us,
    providerID := "" }

/-- `NewManager`'s constructor loop over the snapshot's units. -/
def initialUnits (fs : FullStatus) (entries : List (String × UnitStatus))
    (m : UnitMap) : UnitMap :=
  match entries with
  | [] => m
  | e :: rest => initialUnits fs rest (setAssoc m e.1 (initialUnit fs e.1 e.2))

/-- `NewManager` (the `Init` operation): a failed initial `Status` call
yields the error and no Manager; otherwise the unit map is built from the
snapshot starting from the empty map. -/
def NewManager (app : String) (statusRes : Except String FullStatus) :
    Except String UnitMap :=
  match statusRes with
  | .error e => .error e
  | .ok fs => .ok (initialUnits fs (fs.appUnits app) [])

/-- The struct literal `addUnits` inserts for a newly-diffed unit: phase
`InstanceCreating`, hostname and provider ID at their zero values. -/
def freshCreatingUnit (k : String) (us : UnitStatus) : Unit :=
  { state := .InstanceCreating, jujuName := k, hostname := "", status := us,
    providerID := "" }

/-- `addUnits`' diff loop: every unit of the current snapshot absent from the
previous snapshot is written into the map as a fresh `InstanceCreating`
unit. -/
def addUnitsDiff (prevUnits : List (String × UnitStatus))
    (entries : List (String × UnitStatus)) (m : UnitMap) : UnitMap :=
  match entries with
  | [] => m
  | e :: rest =>
    addUnitsDiff prevUnits rest
      (if (lookupAssoc prevUnits e.1).isNone then
        setAssoc m e.1 (freshCreatingUnit e.1 e.2)
      else m)

/-- `Manager.addUnits` (the `ScaleUp` operation): the previous-snapshot
fetch, the `AddUnits` call and the current-snapshot fetch each propagate
their error with the map untouched; on success the diff loop runs and no
error is returned.  `addRes` is the outcome of the Juju `AddUnits` call
(whose returned unit names the Go code discards). -/
def addUnits (app : String) (m : UnitMap) (prevRes : Except String FullStatus)
    (addRes : Except String (List String)) (currRes : Except String FullStatus) :
    UnitMap × Option String :=
  match prevRes with
  | .error e => (m, some e)
  | .ok prev =>
    match addRes with
    | .error e => (m, some e)
    | .ok _ =>
      match currRes with
      | .error e => (m, some e)
      | .ok curr => (addUnitsDiff (prev.appUnits app) (curr.appUnits app) m, none)

/-- `Manager.getUnitByHostname`: linear scan for the first tracked unit whose
`hostname` field equals the argument.  The Go method returns a `*Unit`; the
embedding also returns the map key of the found entry so that the caller's
in-place mutation can be expressed. -/
def getUnitByHostname (m : UnitMap) (hostname : String) : Option (String × Unit) :=
  match m with
  | [] => none
  | (k, u) :: rest =>
    if u.hostname = hostname then some (k, u) else getUnitByHostname rest hostname

/-- The outcome of one `removeUnit` call: the resulting unit map, the
returned error (if any), and the argument lists of the `DestroyUnits` calls
issued during the call. -/
structure RemoveOutcome where
  units : UnitMap
  err : Option String
  destroyCalls : List (List String)
deriving DecidableEq, Repr

/-- `Manager.removeUnit` (the `ScaleDown` operation): when no tracked unit
has the given hostname, return the not-found error with no `DestroyUnits`
call and the map untouched; otherwise set the found unit's state to
`InstanceDeleting` (before the remote call), issue `DestroyUnits` on its
Juju name, and return that call's error if it failed — the state change is
not rolled back. -/
def removeUnit (m : UnitMap) (hostname : String) (destroyErr : Option String) :
    RemoveOutcome :=
  match getUnitByHostname m hostname with
  | none =>
    { units := m,
      err := some ("unit with hostname " ++ hostname ++ " not found"),
      destroyCalls := [] }
  | some (k, u) =>
    { units := setAssoc m k { u with state := .InstanceDeleting },
      err := destroyErr,
      destroyCalls := [[u.jujuName]] }

/-! ### Association-list lemmas -/

theorem lookupAssoc_setAssoc_self {α : Type} (m : List (String × α)) (k : String) (v : α) :
    lookupAssoc (setAssoc m k v) k = some v := by
  induction m with
  | nil => simp [setAssoc, lookupAssoc]
  | cons e rest ih =>
    obtain ⟨k', v'⟩ := e
    by_cases h : k' = k
    · simp [setAssoc, lookupAssoc, h]
    · simp [setAssoc, lookupAssoc, h, ih]

theorem lookupAssoc_setAssoc_ne {α : Type} (m : List (String × α)) (k k' : String) (v : α)
    (h : k' ≠ k) : lookupAssoc (setAssoc m k v) k' = lookupAssoc m k' := by
  induction m with
  | nil => simp [setAssoc, lookupAssoc, Ne.symm h]
  | cons e rest ih =>
    obtain ⟨k0, v0⟩ := e
    by_cases h0 : k0 = k
    · subst h0
      simp [setAssoc, lookupAssoc, Ne.symm h]
    · simp [setAssoc, lookupAssoc, h0, ih]

theorem setAssoc_eq_self {α : Type} (m : List (String × α)) (k : String) (v : α)
    (h : lookupAssoc m k = some v) : setAssoc m k v = m := by
  induction m with
  | nil => simp [lookupAssoc] at h
  | cons e rest ih =>
    obtain ⟨k0, v0⟩ := e
    by_cases h0 : k0 = k
    · subst h0
      simp [lookupAssoc] at h
      simp [setAssoc, h]
    · simp [lookupAssoc, h0] at h
      simp [setAssoc, h0, ih h]

theorem lookupAssoc_eq_none_of_not_mem_keys {α : Type} (m : List (String × α)) (k : String)
    (h : k ∉ m.map Prod.fst) : lookupAssoc m k = none := by
  induction m with
  | nil => simp [lookupAssoc]
  | cons e rest ih =>
    simp only [List.map_cons, List.mem_cons] at h
    push_neg at h
    simp [lookupAssoc, Ne.symm h.1, ih h.2]

theorem mem_keys_of_lookupAssoc {α : Type} (m : List (String × α)) (k : String) (v : α)
    (h : lookupAssoc m k = some v) : k ∈ m.map Prod.fst := by
  induction m with
  | nil => simp [lookupAssoc] at h
  | cons e rest ih =>
    obtain ⟨k0, v0⟩ := e
    by_cases h0 : k0 = k
    · simp [h0]
    · simp [lookupAssoc, h0] at h
      simp [ih h]

theorem lookupAssoc_eq_of_mem {α : Type} (m : List (String × α)) (k : String) (v : α)
    (hnd : (m.map Prod.fst).Nodup) (h : (k, v) ∈ m) : lookupAssoc m k = some v := by
  induction m with
  | nil => simp at h
  | cons e rest ih =>
    obtain ⟨k0, v0⟩ := e
    simp only [List.map_cons, List.nodup_cons] at hnd
    rcases List.mem_cons.mp h with h1 | h1
    · obtain ⟨hk, hv⟩ := Prod.mk.injEq .. ▸ h1.symm
      simp [lookupAssoc, hk, hv]
    · have hk0 : k0 ≠ k := by
        intro hk
        subst hk
        exact hnd.1 (List.mem_map.mpr ⟨(k0, v), h1, rfl⟩)
      simp [lookupAssoc, hk0, ih hnd.2 h1]

theorem mem_of_lookupAssoc {α : Type} (m : List (String × α)) (k : String) (v : α)
    (h : lookupAssoc m k = some v) : (k, v) ∈ m := by
  induction m with
  | nil => simp [lookupAssoc] at h
  | cons e rest ih =>
    obtain ⟨k0, v0⟩ := e
    by_cases h0 : k0 = k
    · subst h0
      simp [lookupAssoc] at h
      simp [h]
    · simp [lookupAssoc, h0] at h
      exact List.mem_cons_of_mem _ (ih h)

theorem keys_setAssoc_of_mem {α : Type} (m : List (String × α)) (k : String) (v : α)
    (h : k ∈ m.map Prod.fst) : (setAssoc m k v).map Prod.fst = m.map Prod.fst := by
  induction m with
  | nil => simp at h
  | cons e rest ih =>
    obtain ⟨k0, v0⟩ := e
    by_cases h0 : k0 = k
    · simp [setAssoc, h0]
    · simp only [List.map_cons, List.mem_cons] at h
      rcases h with h | h

      · exact absurd h.symm h0
      · simp [setAssoc, h0, ih h]

theorem keys_setAssoc_of_not_mem {α : Type} (m : List (String × α)) (k : String) (v : α)
    (h : k ∉ m.map Prod.fst) : (setAssoc m k v).map Prod.fst = m.map Prod.fst ++ [k] := by
  induction m with
  | nil => simp [setAssoc]
  | cons e rest ih =>
    obtain ⟨k0, v0⟩ := e
    simp only [List.map_cons, List.mem_cons] at h
    push_neg at h
    simp [setAssoc, Ne.symm h.1, ih h.2]

theorem nodup_keys_setAssoc {α : Type} (m : List (String × α)) (k : String) (v : α)
    (hnd : (m.map Prod.fst).Nodup) : ((setAssoc m k v).map Prod.fst).Nodup := by
  by_cases h : k ∈ m.map Prod.fst
  · rw [keys_setAssoc_of_mem m k v h]
    exact hnd
  · rw [keys_setAssoc_of_not_mem m k v h]
    simp [List.nodup_append, hnd, h]

/-! ### Characterization of `refresh` -/

theorem lookupAssoc_refreshObserve (fs : FullStatus) (kube : String → Option String)
    (m : UnitMap) (e : String × UnitStatus) (k : String) :
    lookupAssoc (refreshObserve fs kube m e) k =
      if e.1 = k then
        match lookupAssoc m k with
        | some u => some (updatedUnit u e.2 (fs.machineHostname e.2.machine)
            (resolveProviderID kube (fs.machineHostname e.2.machine)))
        | none =>
          if isActiveIdle e.2 then
            some (freshRunningUnit k e.2 (fs.machineHostname e.2.machine)
              (resolveProviderID kube (fs.machineHostname e.2.machine)))
          else none
      else lookupAssoc m k := by
  obtain ⟨en, eus⟩ := e
  by_cases he : en = k
  · subst he
    simp only [refreshObserve, if_pos rfl]
    cases hm : lookupAssoc m en with
    | some u => simp [lookupAssoc_setAssoc_self]
    | none =>
      by_cases hh : isActiveIdle eus
      · simp [hh, lookupAssoc_setAssoc_self]
      · simp [hh, hm]
  · simp only [refreshObserve, if_neg he]
    cases hm : lookupAssoc m en with
    | some u => simp [lookupAssoc_setAssoc_ne _ _ _ _ (fun hh => he hh.symm)]
    | none =>
      by_cases hh : isActiveIdle eus
      · simp [hh, lookupAssoc_setAssoc_ne _ _ _ _ (fun hh => he hh.symm)]
      · simp [hh]

theorem lookupAssoc_refreshPass1 (fs : FullStatus) (kube : String → Option String)
    (entries : List (String × UnitStatus)) (m : UnitMap) (k : String)
    (hnd : (entries.map Prod.fst).Nodup) :
    lookupAssoc (refreshPass1 fs kube entries m) k =
      match lookupAssoc entries k with
      | none => lookupAssoc m k
      | some us =>
        match lookupAssoc m k with
        | some u => some (updatedUnit u us (fs.machineHostname us.machine)
            (resolveProviderID kube (fs.machineHostname us.machine)))
        | none =>
          if isActiveIdle us then
            some (freshRunningUnit k us (fs.machineHostname us.machine)
              (resolveProviderID kube (fs.machineHostname us.machine)))
          else none := by
  induction entries generalizing m with
  | nil => simp [refreshPass1, lookupAssoc]
  | cons e rest ih =>
    obtain ⟨en, eus⟩ := e
    simp only [List.map_cons, List.nodup_cons] at hnd
    by_cases he : en = k
    · subst he
      have hrest : lookupAssoc rest en = none :=
        lookupAssoc_eq_none_of_not_mem_keys rest en hnd.1
      simp only [refreshPass1, lookupAssoc, if_pos rfl]
      rw [ih _ hnd.2, hrest, lookupAssoc_refreshObserve, if_pos rfl]
      simp
    · simp only [refreshPass1, lookupAssoc, if_neg he]
      rw [ih _ hnd.2, lookupAssoc_refreshObserve, if_neg he]

theorem nodup_keys_refreshObserve (fs : FullStatus) (kube : String → Option String)
    (m : UnitMap) (e : String × UnitStatus) (hm : (m.map Prod.fst).Nodup) :
    ((refreshObserve fs kube m e).map Prod.fst).Nodup := by
  unfold refreshObserve
  cases lookupAssoc m e.1 with
  | some u => exact nodup_keys_setAssoc _ _ _ hm
  | none =>
    by_cases hh : isActiveIdle e.2
    · simpa [hh] using nodup_keys_setAssoc m e.1 (freshRunningUnit e.1 e.2 _ _) hm
    · simpa [hh] using hm

theorem nodup_keys_refreshPass1 (fs : FullStatus) (kube : String → Option String)
    (entries : List (String × UnitStatus)) (m : UnitMap)
    (hm : (m.map Prod.fst).Nodup) :
    ((refreshPass1 fs kube entries m).map Prod.fst).Nodup := by
  induction entries generalizing m with
  | nil => simpa [refreshPass1] using hm
  | cons e rest ih =>
    exact ih _ (nodup_keys_refreshObserve fs kube m e hm)

theorem refreshPass2Entry_key (fs : FullStatus) (app : String) (e e' : String × Unit)
    (h : refreshPass2Entry fs app e = some e') : e'.1 = e.1 := by
  unfold refreshPass2Entry at h
  cases hf : refreshPass2Unit fs app e.1 e.2 with
  | none => simp [hf] at h
  | some u =>
    rw [hf] at h
    simp only [Option.map_some'] at h
    obtain rfl := Option.some_injective _ h
    rfl

theorem not_mem_keys_filterMap_pass2 (fs : FullStatus) (app : String)
    (l : List (String × Unit)) (k : String) (h : k ∉ l.map Prod.fst) :
    k ∉ (l.filterMap (refreshPass2Entry fs app)).map Prod.fst := by
  induction l with
  | nil => simp
  | cons e rest ih =>
    simp only [List.map_cons, List.mem_cons] at h
    push_neg at h
    rw [List.filterMap_cons]
    cases hf : refreshPass2Entry fs app e with
    | none => exact ih h.2
    | some e' =>
      have hk : e'.1 = e.1 := refreshPass2Entry_key fs app e e' hf
      simp only [List.map_cons, List.mem_cons, hk]
      push_neg
      exact ⟨h.1, ih h.2⟩

theorem lookupAssoc_filterMap_pass2 (fs : FullStatus) (app : String)
    (l : List (String × Unit)) (k : String) (hnd : (l.map Prod.fst).Nodup) :
    lookupAssoc (l.filterMap (refreshPass2Entry fs app)) k =
      (lookupAssoc l k).bind (refreshPass2Unit fs app k) := by
  induction l with
  | nil => simp [lookupAssoc]
  | cons e rest ih =>
    obtain ⟨k0, u0⟩ := e
    simp only [List.map_cons, List.nodup_cons] at hnd
    rw [List.filterMap_cons]
    by_cases h0 : k0 = k
    · subst h0
      cases hf : refreshPass2Unit fs app k0 u0 with
      | none =>
        have hnone : lookupAssoc (rest.filterMap (refreshPass2Entry fs app)) k0 = none :=
          lookupAssoc_eq_none_of_not_mem_keys _ _
            (not_mem_keys_filterMap_pass2 fs app rest k0 hnd.1)
        simp [lookupAssoc, hnone, refreshPass2Entry, hf]
      | some u =>
        simp [lookupAssoc, refreshPass2Entry, hf]
    · cases hf : refreshPass2Unit fs app k0 u0 with
      | none => simp [lookupAssoc, refreshPass2Entry, hf, h0, ih hnd.2]
      | some u => simp [lookupAssoc, refreshPass2Entry, hf, h0, ih hnd.2]

/-- Pointwise characterization of what one successful `refresh` pass does at
key `k`: absent-from-snapshot units and `InstanceDeleting` units disappear,
tracked in-snapshot units get their `status`/`hostname`/`providerID`
overwritten with `InstanceCreating` promoted to `InstanceRunning` when
active/idle, and untracked in-snapshot units are inserted as fresh
`InstanceRunning` units exactly when active/idle. -/
def refreshSpecLookup (kube : String → Option String) (app : String)
    (fs : FullStatus) (m : UnitMap) (k : String) : Option Unit :=
  match lookupAssoc (fs.appUnits app) k with
  | none => none
  | some us =>
    let hn := fs.machineHostname us.machine
    let pid := resolveProviderID kube hn
    match lookupAssoc m k with
    | none => if isActiveIdle us then some (freshRunningUnit k us hn pid) else none
    | some u =>
      match u.state with
      | .InstanceDeleting => none
      | .InstanceRunning => some (updatedUnit u us hn pid)
      | .InstanceCreating =>
        if isActiveIdle us then
          some { updatedUnit u us hn pid with state := .InstanceRunning }
        else some (updatedUnit u us hn pid)

theorem refreshOk_lookup (kube : String → Option String) (app : String)
    (fs : FullStatus) (m : UnitMap) (k : String)
    (hm : (m.map Prod.fst).Nodup) (hs : ((fs.appUnits app).map Prod.fst).Nodup) :
    lookupAssoc (refreshOk kube app fs m) k = refreshSpecLookup kube app fs m k := by
  unfold refreshOk refreshSpecLookup
  rw [lookupAssoc_filterMap_pass2 fs app _ k (nodup_keys_refreshPass1 fs kube _ m hm)]
  rw [lookupAssoc_refreshPass1 fs kube _ m k hs]
  cases ha : lookupAssoc (fs.appUnits app) k with
  | none =>
    cases hmk : lookupAssoc m k with
    | none => simp
    | some u => simp [refreshPass2Unit, ha]
  | some us =>
    cases hmk : lookupAssoc m k with
    | none =>
      by_cases hh : isActiveIdle us
      · simp [hh, refreshPass2Unit, ha, freshRunningUnit]
      · simp [hh]
    | some u =>
      rcases hst : u.state with _ | _ | _
      · by_cases hh : isActiveIdle us
        · simp [refreshPass2Unit, ha, updatedUnit, hst, hh]
        · simp [refreshPass2Unit, ha, updatedUnit, hst, hh]
      · simp [refreshPass2Unit, ha, updatedUnit, hst]
      · simp [refreshPass2Unit, ha, updatedUnit, hst]

/-! ### Characterization of `NewManager`, `addUnits` and `getUnitByHostname` -/

theorem lookupAssoc_initialUnits (fs : FullStatus) (entries : List (String × UnitStatus))
    (m : UnitMap) (k : String) (hnd : (entries.map Prod.fst).Nodup) :
    lookupAssoc (initialUnits fs entries m) k =
      match lookupAssoc entries k with
      | some us => some (initialUnit fs k us)
      | none => lookupAssoc m k := by
  induction entries generalizing m with
  | nil => simp [initialUnits, lookupAssoc]
  | cons e rest ih =>
    obtain ⟨en, eus⟩ := e
    simp only [List.map_cons, List.nodup_cons] at hnd
    by_cases he : en = k
    · subst he
      have hrest : lookupAssoc rest en = none :=
        lookupAssoc_eq_none_of_not_mem_keys rest en hnd.1
      simp only [initialUnits, lookupAssoc, if_pos rfl]
      rw [ih _ hnd.2, hrest, lookupAssoc_setAssoc_self]
      simp
    · simp only [initialUnits, lookupAssoc, if_neg he]
      rw [ih _ hnd.2, lookupAssoc_setAssoc_ne _ _ _ _ (fun hh => he hh.symm)]

theorem lookupAssoc_addUnitsDiff (prevUnits : List (String × UnitStatus))
    (entries : List (String × UnitStatus)) (m : UnitMap) (k : String)
    (hnd : (entries.map Prod.fst).Nodup) :
    lookupAssoc (addUnitsDiff prevUnits entries m) k =
      match lookupAssoc entries k with
      | some us =>
        if (lookupAssoc prevUnits k).isNone then some (freshCreatingUnit k us)
        else lookupAssoc m k
      | none => lookupAssoc m k := by
  induction entries generalizing m with
  | nil => simp [addUnitsDiff, lookupAssoc]
  | cons e rest ih =>
    obtain ⟨en, eus⟩ := e
    simp only [List.map_cons, List.nodup_cons] at hnd
    by_cases he : en = k
    · subst he
      have hrest : lookupAssoc rest en = none :=
        lookupAssoc_eq_none_of_not_mem_keys rest en hnd.1
      simp only [addUnitsDiff, lookupAssoc, if_pos rfl]
      rw [ih _ hnd.2, hrest]
      by_cases hp : (lookupAssoc prevUnits en).isNone
      · simp [hp, lookupAssoc_setAssoc_self]
      · simp [hp]
    · simp only [addUnitsDiff, lookupAssoc, if_neg he]
      rw [ih _ hnd.2]
      by_cases hp : (lookupAssoc prevUnits en).isNone
      · simp [hp, lookupAssoc_setAssoc_ne _ _ _ _ (fun hh => he hh.symm)]
      · simp [hp]

theorem getUnitByHostname_mem (m : UnitMap) (h k : String) (u : Unit)
    (hfound : getUnitByHostname m h = some (k, u)) : (k, u) ∈ m := by
  induction m with
  | nil => simp [getUnitByHostname] at hfound
  | cons e rest ih =>
    obtain ⟨k0, u0⟩ := e
    by_cases h0 : u0.hostname = h
    · simp [getUnitByHostname, h0] at hfound
      simp [hfound.1, hfound.2]
    · simp only [getUnitByHostname, if_neg h0] at hfound
      exact List.mem_cons_of_mem _ (ih hfound)

theorem getUnitByHostname_eq_none (m : UnitMap) (h : String)
    (hnone : ∀ e ∈ m, e.2.hostname ≠ h) : getUnitByHostname m h = none := by
  induction m with
  | nil => rfl
  | cons e rest ih =>
    obtain ⟨k0, u0⟩ := e
    have h0 : u0.hostname ≠ h := hnone (k0, u0) (List.mem_cons_self _ _)
    simp only [getUnitByHostname, if_neg h0]
    exact ih (fun e' he' => hnone e' (List.mem_cons_of_mem _ he'))

theorem getUnitByHostname_of_exists (m : UnitMap) (h : String)
    (hex : ∃ e ∈ m, e.2.hostname = h) :
    ∃ k u, getUnitByHostname m h = some (k, u) ∧ u.hostname = h := by
  induction m with
  | nil => simp at hex
  | cons e rest ih =>
    obtain ⟨k0, u0⟩ := e
    by_cases h0 : u0.hostname = h
    · exact ⟨k0, u0, by simp [getUnitByHostname, h0], h0⟩
    · obtain ⟨e', he', hh'⟩ := hex
      rcases List.mem_cons.mp he' with rfl | he'
      · exact absurd hh' h0
      · obtain ⟨k, u, hfind, hu⟩ := ih ⟨e', he', hh'⟩
        exact ⟨k, u, by simp [getUnitByHostname, h0, hfind], hu⟩

/-! ### Claim theorems -/

/-- C3: whenever `refresh` (the `Reconcile` operation) or `addUnits` (the
`ScaleUp` operation) returns an error, the unit map it returns is exactly the
map it started from — every error return happens before any mutation of the
map. -/
theorem failed_call_leaves_units_unchanged (kube : String → Option String)
    (app : String) (m : UnitMap) (statusRes prevRes currRes : Except String FullStatus)
    (addRes : Except String (List String)) (e e' : String) :
    ((refresh kube app m statusRes).2 = some e → (refresh kube app m statusRes).1 = m) ∧
    ((addUnits app m prevRes addRes currRes).2 = some e' →
      (addUnits app m prevRes addRes currRes).1 = m) := by
  constructor
  · intro h
    cases statusRes with
    | error e0 => rfl
    | ok fs => simp [refresh] at h
  · intro h
    cases prevRes with
    | error e0 => rfl
    | ok prev =>
      cases addRes with
      | error e0 => rfl
      | ok xs =>
        cases currRes with
        | error e0 => rfl
        | ok curr => simp [addUnits] at h

/-- Witness for C3: a failed `Status` fetch inside `refresh`, and a failed
first fetch inside `addUnits`, both leave a concrete one-unit map intact. -/
theorem failed_call_leaves_units_unchanged_witness :
    (refresh (fun _ => none) "kubernetes-worker"
        [("kubernetes-worker/0",
          ⟨.InstanceRunning, "kubernetes-worker/0", "host-0", ⟨⟨"idle"⟩, ⟨"active"⟩, "0"⟩, ""⟩)]
        (.error "status error")).1 =
      [("kubernetes-worker/0",
        ⟨.InstanceRunning, "kubernetes-worker/0", "host-0", ⟨⟨"idle"⟩, ⟨"active"⟩, "0"⟩, ""⟩)] ∧
    (addUnits "kubernetes-worker"
        [("kubernetes-worker/0",
          ⟨.InstanceRunning, "kubernetes-worker/0", "host-0", ⟨⟨"idle"⟩, ⟨"active"⟩, "0"⟩, ""⟩)]
        (.error "status error") (.ok []) (.ok ⟨[], []⟩)).1 =
      [("kubernetes-worker/0",
        ⟨.InstanceRunning, "kubernetes-worker/0", "host-0", ⟨⟨"idle"⟩, ⟨"active"⟩, "0"⟩, ""⟩)] :=
  ⟨(failed_call_leaves_units_unchanged (fun _ => none) "kubernetes-worker" _
      (.error "status error") (.error "status error") (.ok ⟨[], []⟩) (.ok [])
      "status error" "status error").1 rfl,
   (failed_call_leaves_units_unchanged (fun _ => none) "kubernetes-worker" _
      (.error "status error") (.error "status error") (.ok ⟨[], []⟩) (.ok [])
      "status error" "status error").2 rfl⟩

/-- C6: `NewManager` (the `Init` operation) propagates a failed initial
`Status` call as its own error, producing no Manager; on success it tracks
exactly the units of the managed application's snapshot entry, each with
phase `InstanceRunning` when its workload status is `active` and its agent
status is `idle`, and `InstanceCreating` otherwise. -/
theorem NewManager_builds_map_from_snapshot (app e : String) (fs : FullStatus)
    (k : String) (hnd : ((fs.appUnits app).map Prod.fst).Nodup) :
    NewManager app (.error e) = .error e ∧
    ∃ m0, NewManager app (.ok fs) = .ok m0 ∧
      lookupAssoc m0 k = (lookupAssoc (fs.appUnits app) k).map (fun us =>
        { state := if isActiveIdle us then .InstanceRunning else .InstanceCreating,
          jujuName := k, hostname := fs.machineHostname us.machine, status := us,
          providerID := "" }) := by
  refine ⟨rfl, initialUnits fs (fs.appUnits app) [], rfl, ?_⟩
  rw [lookupAssoc_initialUnits fs (fs.appUnits app) [] k hnd]
  cases lookupAssoc (fs.appUnits app) k with
  | none => rfl
  | some us => rfl

/-- Witness for C6: a two-unit snapshot (one active/idle, one blocked)
produces a map tracking the first as `InstanceRunning` and the second as
`InstanceCreating`. -/
theorem NewManager_builds_map_from_snapshot_witness :
    ∃ m0,
      NewManager "kubernetes-worker"
        (.ok ⟨[("kubernetes-worker",
                ⟨[("kubernetes-worker/0", ⟨⟨"idle"⟩, ⟨"active"⟩, "0"⟩),
                  ("kubernetes-worker/1", ⟨⟨"error"⟩, ⟨"blocked"⟩, "1"⟩)]⟩)],
              [("0", ⟨"host-0"⟩)]⟩) = .ok m0 ∧
      lookupAssoc m0 "kubernetes-worker/1" =
        some ⟨.InstanceCreating, "kubernetes-worker/1", "", ⟨⟨"error"⟩, ⟨"blocked"⟩, "1"⟩, ""⟩ := by
  obtain ⟨-, m0, hok, hl⟩ :=
    NewManager_builds_map_from_snapshot "kubernetes-worker" "e"
      ⟨[("kubernetes-worker",
         ⟨[("kubernetes-worker/0", ⟨⟨"idle"⟩, ⟨"active"⟩, "0"⟩),
           ("kubernetes-worker/1", ⟨⟨"error"⟩, ⟨"blocked"⟩, "1"⟩)]⟩)],
        [("0", ⟨"host-0"⟩)]⟩
      "kubernetes-worker/1" (by decide)
  refine ⟨m0, hok, ?_⟩
  rw [hl]
  decide

/-- C7: when `removeUnit` (the `ScaleDown` operation) finds a tracked unit
with the requested hostname and the `DestroyUnits` call fails, it returns the
destroy error, the found unit's phase has been set to `InstanceDeleting`
before the call (and is not rolled back), a `DestroyUnits` call on exactly
that unit's Juju name was issued, and no unit was removed from the map. -/
theorem removeUnit_destroy_error_keeps_deleting (m : UnitMap) (hostname e k : String)
    (u : Unit) (hfound : getUnitByHostname m hostname = some (k, u)) :
    (removeUnit m hostname (some e)).err = some e ∧
    (removeUnit m hostname (some e)).destroyCalls = [[u.jujuName]] ∧
    lookupAssoc (removeUnit m hostname (some e)).units k =
      some { u with state := .InstanceDeleting } ∧
    (removeUnit m hostname (some e)).units.map Prod.fst = m.map Prod.fst := by
  have hout : removeUnit m hostname (some e) =
      { units := setAssoc m k { u with state := .InstanceDeleting }, err := some e,
        destroyCalls := [[u.jujuName]] } := by
    simp [removeUnit, hfound]
  rw [hout]
  refine ⟨rfl, rfl, lookupAssoc_setAssoc_self _ _ _, ?_⟩
  exact keys_setAssoc_of_mem _ _ _
    (List.mem_map.mpr ⟨(k, u), getUnitByHostname_mem m hostname k u hfound, rfl⟩)

/-- Witness for C7: destroying a concrete tracked unit with a failing
`DestroyUnits` call keeps it tracked in phase `InstanceDeleting`. -/
theorem removeUnit_destroy_error_keeps_deleting_witness :
    (removeUnit
        [("kubernetes-worker/0",
          ⟨.InstanceRunning, "kubernetes-worker/0", "host-0", ⟨⟨"idle"⟩, ⟨"active"⟩, "0"⟩, ""⟩)]
        "host-0" (some "destroy error")).err = some "destroy error" ∧
    (removeUnit
        [("kubernetes-worker/0",
          ⟨.InstanceRunning, "kubernetes-worker/0", "host-0", ⟨⟨"idle"⟩, ⟨"active"⟩, "0"⟩, ""⟩)]
        "host-0" (some "destroy error")).destroyCalls = [["kubernetes-worker/0"]] ∧
    lookupAssoc (removeUnit
        [("kubernetes-worker/0",
          ⟨.InstanceRunning, "kubernetes-worker/0", "host-0", ⟨⟨"idle"⟩, ⟨"active"⟩, "0"⟩, ""⟩)]
        "host-0" (some "destroy error")).units "kubernetes-worker/0" =
      some ⟨.InstanceDeleting, "kubernetes-worker/0", "host-0", ⟨⟨"idle"⟩, ⟨"active"⟩, "0"⟩, ""⟩ := by
  obtain ⟨h1, h2, h3, -⟩ :=
    removeUnit_destroy_error_keeps_deleting
      [("kubernetes-worker/0",
        ⟨.InstanceRunning, "kubernetes-worker/0", "host-0", ⟨⟨"idle"⟩, ⟨"active"⟩, "0"⟩, ""⟩)]
      "host-0" "destroy error" "kubernetes-worker/0"
      ⟨.InstanceRunning, "kubernetes-worker/0", "host-0", ⟨⟨"idle"⟩, ⟨"active"⟩, "0"⟩, ""⟩
      (by decide)
  exact ⟨h1, h2, h3⟩

/-- C8: when no tracked unit's hostname equals the requested one,
`removeUnit` (the `ScaleDown` operation) returns the not-found error, issues
no `DestroyUnits` call, and returns the map completely unchanged. -/
theorem removeUnit_not_found_unchanged (m : UnitMap) (h : String)
    (destroyErr : Option String) (hnone : ∀ e ∈ m, e.2.hostname ≠ h) :
    removeUnit m h destroyErr =
      { units := m, err := some ("unit with hostname " ++ h ++ " not found"),
        destroyCalls := [] } := by
  simp [removeUnit, getUnitByHostname_eq_none m h hnone]

/-- Witness for C8: scaling down a hostname no tracked unit has leaves a
concrete one-unit map unchanged with a not-found error and no destroy call. -/
theorem removeUnit_not_found_unchanged_witness :
    removeUnit
        [("kubernetes-worker/0",
          ⟨.InstanceRunning, "kubernetes-worker/0", "host-0", ⟨⟨"idle"⟩, ⟨"active"⟩, "0"⟩, ""⟩)]
        "no-such-host" none =
      { units := [("kubernetes-worker/0",
          ⟨.InstanceRunning, "kubernetes-worker/0", "host-0", ⟨⟨"idle"⟩, ⟨"active"⟩, "0"⟩, ""⟩)],
        err := some "unit with hostname no-such-host not found",
        destroyCalls := [] } :=
  removeUnit_not_found_unchanged _ "no-such-host" none (by decide)

/-- C10: when at least one tracked unit has an empty (unresolved) hostname,
`removeUnit ""` (that is, `ScaleDown` of the empty node identity) does not
fail with not-found: it selects the first tracked unit whose hostname is
empty, sets its phase to `InstanceDeleting`, and issues a `DestroyUnits`
call on that unit's Juju name. -/
theorem removeUnit_empty_hostname_selects_unresolved (m : UnitMap)
    (hex : ∃ e ∈ m, e.2.hostname = "") :
    ∃ k u, getUnitByHostname m "" = some (k, u) ∧ u.hostname = "" ∧
      (removeUnit m "" none).err = none ∧
      lookupAssoc (removeUnit m "" none).units k =
        some { u with state := .InstanceDeleting } ∧
      (removeUnit m "" none).destroyCalls = [[u.jujuName]] := by
  obtain ⟨k, u, hfind, hh⟩ := getUnitByHostname_of_exists m "" hex
  exact ⟨k, u, hfind, hh, by simp [removeUnit, hfind],
    by simp [removeUnit, hfind, lookupAssoc_setAssoc_self],
    by simp [removeUnit, hfind]⟩

/-- Witness for C10: in a map holding one freshly-created unit (hostname
still empty, as `addUnits` leaves it), `removeUnit ""` finds it, marks it
`InstanceDeleting` and requests its destruction. -/
theorem removeUnit_empty_hostname_selects_unresolved_witness :
    ∃ k u, getUnitByHostname
        [("kubernetes-worker/5",
          ⟨.InstanceCreating, "kubernetes-worker/5", "", ⟨⟨"allocating"⟩, ⟨"waiting"⟩, "5"⟩, ""⟩)]
        "" = some (k, u) ∧ u.hostname = "" ∧
      (removeUnit
        [("kubernetes-worker/5",
          ⟨.InstanceCreating, "kubernetes-worker/5", "", ⟨⟨"allocating"⟩, ⟨"waiting"⟩, "5"⟩, ""⟩)]
        "" none).err = none ∧
      lookupAssoc (removeUnit
        [("kubernetes-worker/5",
          ⟨.InstanceCreating, "kubernetes-worker/5", "", ⟨⟨"allocating"⟩, ⟨"waiting"⟩, "5"⟩, ""⟩)]
        "" none).units k = some { u with state := .InstanceDeleting } ∧
      (removeUnit
        [("kubernetes-worker/5",
          ⟨.InstanceCreating, "kubernetes-worker/5", "", ⟨⟨"allocating"⟩, ⟨"waiting"⟩, "5"⟩, ""⟩)]
        "" none).destroyCalls = [[u.jujuName]] :=
  removeUnit_empty_hostname_selects_unresolved _ (by decide)

/-- C5: during a successful `refresh` (the `Reconcile` operation), an
untracked unit ID present in the snapshot is inserted — directly in phase
`InstanceRunning` — exactly when its workload status is `active` and its
agent status is `idle`; with any other health combination the map gains no
entry for it. -/
theorem refresh_untracked_insert_iff (kube : String → Option String) (app : String)
    (fs : FullStatus) (m : UnitMap) (k : String) (us : UnitStatus)
    (hm : (m.map Prod.fst).Nodup) (hs : ((fs.appUnits app).map Prod.fst).Nodup)
    (hun : lookupAssoc m k = none) (hin : lookupAssoc (fs.appUnits app) k = some us) :
    lookupAssoc ((refresh kube app m (.ok fs)).1) k =
      if isActiveIdle us then
        some (freshRunningUnit k us (fs.machineHostname us.machine)
          (resolveProviderID kube (fs.machineHostname us.machine)))
      else none := by
  have hr : (refresh kube app m (.ok fs)).1 = refreshOk kube app fs m := rfl
  rw [hr, refreshOk_lookup kube app fs m k hm hs]
  simp [refreshSpecLookup, hin, hun]

/-- Witness for C5: an untracked active/idle unit is inserted as
`InstanceRunning`, and an untracked `waiting` unit is not inserted, by one
concrete `refresh` each. -/
theorem refresh_untracked_insert_iff_witness :
    lookupAssoc ((refresh (fun _ => some "provider-9") "kubernetes-worker" []
        (.ok ⟨[("kubernetes-worker", ⟨[("kubernetes-worker/9", ⟨⟨"idle"⟩, ⟨"active"⟩, "9"⟩)]⟩)],
              [("9", ⟨"host-9"⟩)]⟩)).1) "kubernetes-worker/9" =
      some ⟨.InstanceRunning, "kubernetes-worker/9", "host-9", ⟨⟨"idle"⟩, ⟨"active"⟩, "9"⟩,
        "provider-9"⟩ ∧
    lookupAssoc ((refresh (fun _ => some "provider-9") "kubernetes-worker" []
        (.ok ⟨[("kubernetes-worker", ⟨[("kubernetes-worker/10", ⟨⟨"executing"⟩, ⟨"waiting"⟩, "10"⟩)]⟩)],
              []⟩)).1) "kubernetes-worker/10" = none := by
  constructor
  · rw [refresh_untracked_insert_iff (fun _ => some "provider-9") "kubernetes-worker"
      ⟨[("kubernetes-worker", ⟨[("kubernetes-worker/9", ⟨⟨"idle"⟩, ⟨"active"⟩, "9"⟩)]⟩)],
        [("9", ⟨"host-9"⟩)]⟩ [] "kubernetes-worker/9" ⟨⟨"idle"⟩, ⟨"active"⟩, "9"⟩
      (by decide) (by decide) (by decide) (by decide)]
    decide
  · rw [refresh_untracked_insert_iff (fun _ => some "provider-9") "kubernetes-worker"
      ⟨[("kubernetes-worker", ⟨[("kubernetes-worker/10", ⟨⟨"executing"⟩, ⟨"waiting"⟩, "10"⟩)]⟩)],
        []⟩ [] "kubernetes-worker/10" ⟨⟨"executing"⟩, ⟨"waiting"⟩, "10"⟩
      (by decide) (by decide) (by decide) (by decide)]
    decide

/-- Counterexample to C1 as stated: after `removeUnit` (ScaleDown) marks a
unit `InstanceDeleting`, the first `refresh` removes it from the map, but a
second `refresh` against a snapshot that still reports the same unit ID
active/idle (destruction being asynchronous) re-inserts that external ID as
a tracked unit in phase `InstanceRunning`. -/
theorem deleting_unit_readded_as_running :
    ((lookupAssoc (removeUnit
        [("kubernetes-worker/0",
          ⟨.InstanceRunning, "kubernetes-worker/0", "host-0", ⟨⟨"idle"⟩, ⟨"active"⟩, "0"⟩, ""⟩)]
        "host-0" none).units "kubernetes-worker/0").map Unit.state =
      some .InstanceDeleting) ∧
    (lookupAssoc ((refresh (fun _ => none) "kubernetes-worker"
        (removeUnit
          [("kubernetes-worker/0",
            ⟨.InstanceRunning, "kubernetes-worker/0", "host-0", ⟨⟨"idle"⟩, ⟨"active"⟩, "0"⟩, ""⟩)]
          "host-0" none).units
        (.ok ⟨[("kubernetes-worker", ⟨[("kubernetes-worker/0", ⟨⟨"idle"⟩, ⟨"active"⟩, "0"⟩)]⟩)],
              [("0", ⟨"host-0"⟩)]⟩)).1) "kubernetes-worker/0" = none) ∧
    ((lookupAssoc ((refresh (fun _ => none) "kubernetes-worker"
        ((refresh (fun _ => none) "kubernetes-worker"
          (removeUnit
            [("kubernetes-worker/0",
              ⟨.InstanceRunning, "kubernetes-worker/0", "host-0", ⟨⟨"idle"⟩, ⟨"active"⟩, "0"⟩, ""⟩)]
            "host-0" none).units
          (.ok ⟨[("kubernetes-worker", ⟨[("kubernetes-worker/0", ⟨⟨"idle"⟩, ⟨"active"⟩, "0"⟩)]⟩)],
                [("0", ⟨"host-0"⟩)]⟩)).1)
        (.ok ⟨[("kubernetes-worker", ⟨[("kubernetes-worker/0", ⟨⟨"idle"⟩, ⟨"active"⟩, "0"⟩)]⟩)],
              [("0", ⟨"host-0"⟩)]⟩)).1) "kubernetes-worker/0").map Unit.state =
      some .InstanceRunning) := by
  decide

/-- C1 (amended): while a unit remains tracked it is never moved from
`InstanceDeleting` back to `InstanceCreating` or `InstanceRunning` —
instead, the very next successful `refresh` removes it from the map.  (As
the counterexample shows, a later `refresh` may re-insert the same external
ID as a fresh unit when the snapshot still reports it active/idle.) -/
theorem deleting_unit_removed_by_next_refresh (kube : String → Option String)
    (app : String) (fs : FullStatus) (m : UnitMap) (k : String) (u : Unit)
    (hm : (m.map Prod.fst).Nodup) (hs : ((fs.appUnits app).map Prod.fst).Nodup)
    (htr : lookupAssoc m k = some u) (hdel : u.state = .InstanceDeleting) :
    lookupAssoc ((refresh kube app m (.ok fs)).1) k = none := by
  have hr : (refresh kube app m (.ok fs)).1 = refreshOk kube app fs m := rfl
  rw [hr, refreshOk_lookup kube app fs m k hm hs]
  unfold refreshSpecLookup
  cases ha : lookupAssoc (fs.appUnits app) k with
  | none => rfl
  | some us => simp [htr, hdel]

/-- Witness for C1 (amended): one concrete `refresh` removes a concrete
`InstanceDeleting` unit that is still present in the snapshot. -/
theorem deleting_unit_removed_by_next_refresh_witness :
    lookupAssoc ((refresh (fun _ => none) "kubernetes-worker"
        [("kubernetes-worker/1",
          ⟨.InstanceDeleting, "kubernetes-worker/1", "host-1", ⟨⟨"idle"⟩, ⟨"active"⟩, "1"⟩, ""⟩)]
        (.ok ⟨[("kubernetes-worker", ⟨[("kubernetes-worker/1", ⟨⟨"idle"⟩, ⟨"active"⟩, "1"⟩)]⟩)],
              [("1", ⟨"host-1"⟩)]⟩)).1) "kubernetes-worker/1" = none :=
  deleting_unit_removed_by_next_refresh (fun _ => none) "kubernetes-worker"
    ⟨[("kubernetes-worker", ⟨[("kubernetes-worker/1", ⟨⟨"idle"⟩, ⟨"active"⟩, "1"⟩)]⟩)],
      [("1", ⟨"host-1"⟩)]⟩
    [("kubernetes-worker/1",
      ⟨.InstanceDeleting, "kubernetes-worker/1", "host-1", ⟨⟨"idle"⟩, ⟨"active"⟩, "1"⟩, ""⟩)]
    "kubernetes-worker/1"
    ⟨.InstanceDeleting, "kubernetes-worker/1", "host-1", ⟨⟨"idle"⟩, ⟨"active"⟩, "1"⟩, ""⟩
    (by decide) (by decide) (by decide) (by decide)

/-- Counterexample to C9 as stated: `refresh` overwrites a tracked unit's
hostname unconditionally; against a snapshot in which the unit's machine has
no resolvable hostname, a previously resolved identity (`"host-2"`) is
cleared back to empty while the unit stays tracked. -/
theorem refresh_clears_resolved_hostname :
    lookupAssoc
        ([("kubernetes-worker/2",
          ⟨.InstanceRunning, "kubernetes-worker/2", "host-2", ⟨⟨"idle"⟩, ⟨"active"⟩, "2"⟩,
            "provider-2"⟩)] : UnitMap) "kubernetes-worker/2" =
      some ⟨.InstanceRunning, "kubernetes-worker/2", "host-2", ⟨⟨"idle"⟩, ⟨"active"⟩, "2"⟩,
        "provider-2"⟩ ∧
    lookupAssoc ((refresh (fun _ => some "provider-2") "kubernetes-worker"
        [("kubernetes-worker/2",
          ⟨.InstanceRunning, "kubernetes-worker/2", "host-2", ⟨⟨"idle"⟩, ⟨"active"⟩, "2"⟩,
            "provider-2"⟩)]
        (.ok ⟨[("kubernetes-worker", ⟨[("kubernetes-worker/2", ⟨⟨"idle"⟩, ⟨"active"⟩, "2"⟩)]⟩)],
              []⟩)).1) "kubernetes-worker/2" =
      some ⟨.InstanceRunning, "kubernetes-worker/2", "", ⟨⟨"idle"⟩, ⟨"active"⟩, "2"⟩, ""⟩ := by
  decide

/-- C9 (amended): for every tracked unit surviving a `refresh` pass while
present in the snapshot, the pass overwrites its hostname (and provider ID)
with the values resolved from the current snapshot — identity resolution is
not write-once, so a previously resolved identity can be replaced or
cleared. -/
theorem refresh_overwrites_resolved_identity (kube : String → Option String)
    (app : String) (fs : FullStatus) (m : UnitMap) (k : String) (u : Unit)
    (us : UnitStatus)
    (hm : (m.map Prod.fst).Nodup) (hs : ((fs.appUnits app).map Prod.fst).Nodup)
    (htr : lookupAssoc m k = some u) (hin : lookupAssoc (fs.appUnits app) k = some us)
    (hnd : u.state ≠ .InstanceDeleting) :
    ∃ u', lookupAssoc ((refresh kube app m (.ok fs)).1) k = some u' ∧
      u'.hostname = fs.machineHostname us.machine ∧
      u'.providerID = resolveProviderID kube (fs.machineHostname us.machine) := by
  have hr : (refresh kube app m (.ok fs)).1 = refreshOk kube app fs m := rfl
  rw [hr, refreshOk_lookup kube app fs m k hm hs]
  simp only [refreshSpecLookup, hin, htr]
  rcases hst : u.state with _ | _ | _
  · simp only [hst]
    by_cases hh : isActiveIdle us
    · exact ⟨{ updatedUnit u us (fs.machineHostname us.machine)
          (resolveProviderID kube (fs.machineHostname us.machine)) with
          state := .InstanceRunning },
        by simp [hh], by simp [updatedUnit], by simp [updatedUnit]⟩
    · exact ⟨updatedUnit u us (fs.machineHostname us.machine)
          (resolveProviderID kube (fs.machineHostname us.machine)),
        by simp [hh], by simp [updatedUnit], by simp [updatedUnit]⟩
  · simp only [hst]
    exact ⟨updatedUnit u us (fs.machineHostname us.machine)
        (resolveProviderID kube (fs.machineHostname us.machine)),
      rfl, by simp [updatedUnit], by simp [updatedUnit]⟩
  · exact absurd hst hnd

/-- Witness for C9 (amended): one concrete `refresh` rewrites a tracked
unit's hostname and provider ID to the snapshot-resolved values. -/
theorem refresh_overwrites_resolved_identity_witness :
    ∃ u', lookupAssoc ((refresh (fun _ => some "provider-3") "kubernetes-worker"
        [("kubernetes-worker/3",
          ⟨.InstanceRunning, "kubernetes-worker/3", "", ⟨⟨"idle"⟩, ⟨"active"⟩, "3"⟩, ""⟩)]
        (.ok ⟨[("kubernetes-worker", ⟨[("kubernetes-worker/3", ⟨⟨"idle"⟩, ⟨"active"⟩, "3"⟩)]⟩)],
              [("3", ⟨"host-3"⟩)]⟩)).1) "kubernetes-worker/3" = some u' ∧
      u'.hostname = "host-3" ∧ u'.providerID = "provider-3" := by
  obtain ⟨u', h1, h2, h3⟩ :=
    refresh_overwrites_resolved_identity (fun _ => some "provider-3") "kubernetes-worker"
      ⟨[("kubernetes-worker", ⟨[("kubernetes-worker/3", ⟨⟨"idle"⟩, ⟨"active"⟩, "3"⟩)]⟩)],
        [("3", ⟨"host-3"⟩)]⟩
      [("kubernetes-worker/3",
        ⟨.InstanceRunning, "kubernetes-worker/3", "", ⟨⟨"idle"⟩, ⟨"active"⟩, "3"⟩, ""⟩)]
      "kubernetes-worker/3"
      ⟨.InstanceRunning, "kubernetes-worker/3", "", ⟨⟨"idle"⟩, ⟨"active"⟩, "3"⟩, ""⟩
      ⟨⟨"idle"⟩, ⟨"active"⟩, "3"⟩
      (by decide) (by decide) (by decide) (by decide) (by decide)
  exact ⟨u', h1, by rw [h2]; decide, by rw [h3]; decide⟩

/-- Counterexample to C4 as stated: when a unit ID that is already tracked
appears in `after` but not in `before`, `addUnits` (ScaleUp) overwrites the
tracked unit — here a unit tracked as `InstanceRunning` is reset to a fresh
`InstanceCreating` unit, so not every previously tracked unit keeps its
phase and fields. -/
theorem addUnits_overwrites_tracked_unit :
    (addUnits "kubernetes-worker"
        [("kubernetes-worker/4",
          ⟨.InstanceRunning, "kubernetes-worker/4", "host-4", ⟨⟨"idle"⟩, ⟨"active"⟩, "4"⟩,
            "provider-4"⟩)]
        (.ok ⟨[("kubernetes-worker", ⟨[]⟩)], []⟩) (.ok ["kubernetes-worker/4"])
        (.ok ⟨[("kubernetes-worker", ⟨[("kubernetes-worker/4", ⟨⟨"idle"⟩, ⟨"active"⟩, "4"⟩)]⟩)],
              []⟩)).2 = none ∧
    (addUnits "kubernetes-worker"
        [("kubernetes-worker/4",
          ⟨.InstanceRunning, "kubernetes-worker/4", "host-4", ⟨⟨"idle"⟩, ⟨"active"⟩, "4"⟩,
            "provider-4"⟩)]
        (.ok ⟨[("kubernetes-worker", ⟨[]⟩)], []⟩) (.ok ["kubernetes-worker/4"])
        (.ok ⟨[("kubernetes-worker", ⟨[("kubernetes-worker/4", ⟨⟨"idle"⟩, ⟨"active"⟩, "4"⟩)]⟩)],
              []⟩)).1 =
      [("kubernetes-worker/4",
        ⟨.InstanceCreating, "kubernetes-worker/4", "", ⟨⟨"idle"⟩, ⟨"active"⟩, "4"⟩, ""⟩)] := by
  decide

/-- C4 (amended): a successful `addUnits` (ScaleUp) returns no error and,
at every unit ID: an ID present in the `after` snapshot but absent from the
`before` snapshot is written as a fresh `InstanceCreating` unit with
unresolved identity (overwriting any tracked unit under that ID); every
other ID keeps exactly its previous map entry — in particular no unit is
removed, however few new IDs the diff finds. -/
theorem addUnits_inserts_snapshot_diff (app : String) (m : UnitMap)
    (prev curr : FullStatus) (adds : List String) (k : String)
    (hnd : ((curr.appUnits app).map Prod.fst).Nodup) :
    (addUnits app m (.ok prev) (.ok adds) (.ok curr)).2 = none ∧
    lookupAssoc (addUnits app m (.ok prev) (.ok adds) (.ok curr)).1 k =
      match lookupAssoc (curr.appUnits app) k with
      | some us =>
        if (lookupAssoc (prev.appUnits app) k).isNone then some (freshCreatingUnit k us)
        else lookupAssoc m k
      | none => lookupAssoc m k := by
  exact ⟨rfl, lookupAssoc_addUnitsDiff (prev.appUnits app) (curr.appUnits app) m k hnd⟩

/-- Witness for C4 (amended): with `before = {u1}` and `after = {u1, u2}`,
one concrete `addUnits` leaves `u1` untouched and inserts `u2` as a fresh
`InstanceCreating` unit. -/
theorem addUnits_inserts_snapshot_diff_witness :
    (addUnits "kubernetes-worker"
        [("kubernetes-worker/1",
          ⟨.InstanceRunning, "kubernetes-worker/1", "host-1", ⟨⟨"idle"⟩, ⟨"active"⟩, "1"⟩, ""⟩)]
        (.ok ⟨[("kubernetes-worker", ⟨[("kubernetes-worker/1", ⟨⟨"idle"⟩, ⟨"active"⟩, "1"⟩)]⟩)], []⟩)
        (.ok ["kubernetes-worker/2"])
        (.ok ⟨[("kubernetes-worker",
                ⟨[("kubernetes-worker/1", ⟨⟨"idle"⟩, ⟨"active"⟩, "1"⟩),
                  ("kubernetes-worker/2", ⟨⟨"allocating"⟩, ⟨"waiting"⟩, "2"⟩)]⟩)], []⟩)).2 = none ∧
    lookupAssoc (addUnits "kubernetes-worker"
        [("kubernetes-worker/1",
          ⟨.InstanceRunning, "kubernetes-worker/1", "host-1", ⟨⟨"idle"⟩, ⟨"active"⟩, "1"⟩, ""⟩)]
        (.ok ⟨[("kubernetes-worker", ⟨[("kubernetes-worker/1", ⟨⟨"idle"⟩, ⟨"active"⟩, "1"⟩)]⟩)], []⟩)
        (.ok ["kubernetes-worker/2"])
        (.ok ⟨[("kubernetes-worker",
                ⟨[("kubernetes-worker/1", ⟨⟨"idle"⟩, ⟨"active"⟩, "1"⟩),
                  ("kubernetes-worker/2", ⟨⟨"allocating"⟩, ⟨"waiting"⟩, "2"⟩)]⟩)], []⟩)).1
      "kubernetes-worker/2" =
      some ⟨.InstanceCreating, "kubernetes-worker/2", "", ⟨⟨"allocating"⟩, ⟨"waiting"⟩, "2"⟩, ""⟩ := by
  obtain ⟨h1, h2⟩ :=
    addUnits_inserts_snapshot_diff "kubernetes-worker"
      [("kubernetes-worker/1",
        ⟨.InstanceRunning, "kubernetes-worker/1", "host-1", ⟨⟨"idle"⟩, ⟨"active"⟩, "1"⟩, ""⟩)]
      ⟨[("kubernetes-worker", ⟨[("kubernetes-worker/1", ⟨⟨"idle"⟩, ⟨"active"⟩, "1"⟩)]⟩)], []⟩
      ⟨[("kubernetes-worker",
         ⟨[("kubernetes-worker/1", ⟨⟨"idle"⟩, ⟨"active"⟩, "1"⟩),
           ("kubernetes-worker/2", ⟨⟨"allocating"⟩, ⟨"waiting"⟩, "2"⟩)]⟩)], []⟩
      ["kubernetes-worker/2"] "kubernetes-worker/2" (by decide)
  refine ⟨h1, ?_⟩
  rw [h2]
  decide

/-! ### Stability of `refresh` output (idempotence machinery) -/

theorem updatedUnit_eq_self (u : Unit) :
    updatedUnit u u.status u.hostname u.providerID = u := rfl

theorem nodup_keys_filterMap_pass2 (fs : FullStatus) (app : String)
    (l : List (String × Unit)) (hnd : (l.map Prod.fst).Nodup) :
    ((l.filterMap (refreshPass2Entry fs app)).map Prod.fst).Nodup := by
  induction l with
  | nil => simp
  | cons e rest ih =>
    simp only [List.map_cons, List.nodup_cons] at hnd
    rw [List.filterMap_cons]
    cases hf : refreshPass2Entry fs app e with
    | none => exact ih hnd.2
    | some e' =>
      have hk := refreshPass2Entry_key fs app e e' hf
      simp only [List.map_cons, List.nodup_cons]
      exact ⟨hk ▸ not_mem_keys_filterMap_pass2 fs app rest e.1 hnd.1, ih hnd.2⟩

theorem nodup_keys_refreshOk (kube : String → Option String) (app : String)
    (fs : FullStatus) (m : UnitMap) (hm : (m.map Prod.fst).Nodup) :
    ((refreshOk kube app fs m).map Prod.fst).Nodup :=
  nodup_keys_filterMap_pass2 fs app _ (nodup_keys_refreshPass1 fs kube _ m hm)

/-- Every unit tracked after a successful `refresh` pass is present in the
snapshot, carries the snapshot-derived `status`/`hostname`/`providerID`
fields, is not `InstanceDeleting`, and is only `InstanceCreating` when the
snapshot does not report it active/idle. -/
theorem refreshOk_tracked_fields (kube : String → Option String) (app : String)
    (fs : FullStatus) (m : UnitMap) (k : String) (u' : Unit)
    (hm : (m.map Prod.fst).Nodup) (hs : ((fs.appUnits app).map Prod.fst).Nodup)
    (h : lookupAssoc (refreshOk kube app fs m) k = some u') :
    ∃ us, lookupAssoc (fs.appUnits app) k = some us ∧
      u'.status = us ∧
      u'.hostname = fs.machineHostname us.machine ∧
      u'.providerID = resolveProviderID kube (fs.machineHostname us.machine) ∧
      u'.state ≠ .InstanceDeleting ∧
      (u'.state = .InstanceCreating → isActiveIdle us = false) := by
  rw [refreshOk_lookup kube app fs m k hm hs] at h
  cases ha : lookupAssoc (fs.appUnits app) k with
  | none =>
    rw [show refreshSpecLookup kube app fs m k = none by
      simp [refreshSpecLookup, ha]] at h
    cases h
  | some us =>
    refine ⟨us, rfl, ?_⟩
    cases hmk : lookupAssoc m k with
    | none =>
      cases hh : isActiveIdle us with
      | true =>
        rw [show refreshSpecLookup kube app fs m k =
            some (freshRunningUnit k us (fs.machineHostname us.machine)
              (resolveProviderID kube (fs.machineHostname us.machine))) by
          simp [refreshSpecLookup, ha, hmk, hh]] at h
        injection h with h
        subst h
        simp [freshRunningUnit]
      | false =>
        rw [show refreshSpecLookup kube app fs m k = none by
          simp [refreshSpecLookup, ha, hmk, hh]] at h
        cases h
    | some u =>
      rcases hst : u.state with _ | _ | _
      · cases hh : isActiveIdle us with
        | true =>
          rw [show refreshSpecLookup kube app fs m k =
              some { updatedUnit u us (fs.machineHostname us.machine)
                (resolveProviderID kube (fs.machineHostname us.machine)) with
                state := .InstanceRunning } by
            simp [refreshSpecLookup, ha, hmk, hst, hh]] at h
          injection h with h
          subst h
          simp [updatedUnit]
        | false =>
          rw [show refreshSpecLookup kube app fs m k =
              some (updatedUnit u us (fs.machineHostname us.machine)
                (resolveProviderID kube (fs.machineHostname us.machine))) by
            simp [refreshSpecLookup, ha, hmk, hst, hh]] at h
          injection h with h
          subst h
          simp [updatedUnit, hst, hh]
      · rw [show refreshSpecLookup kube app fs m k =
            some (updatedUnit u us (fs.machineHostname us.machine)
              (resolveProviderID kube (fs.machineHostname us.machine))) by
          simp [refreshSpecLookup, ha, hmk, hst]] at h
        injection h with h
        subst h
        simp [updatedUnit, hst]
      · rw [show refreshSpecLookup kube app fs m k = none by
          simp [refreshSpecLookup, ha, hmk, hst]] at h
        cases h

/-- If a snapshot unit is active/idle and no tracked `InstanceDeleting` unit
is reported active/idle by the snapshot, then after a successful `refresh`
that unit ID is tracked. -/
theorem refreshOk_keeps_healthy (kube : String → Option String) (app : String)
    (fs : FullStatus) (m : UnitMap) (k : String) (us : UnitStatus)
    (hm : (m.map Prod.fst).Nodup) (hs : ((fs.appUnits app).map Prod.fst).Nodup)
    (hin : lookupAssoc (fs.appUnits app) k = some us)
    (hh : isActiveIdle us = true)
    (hH : ∀ e ∈ m, e.2.state = .InstanceDeleting →
      (lookupAssoc (fs.appUnits app) e.1).all (fun x => ! isActiveIdle x) = true) :
    (lookupAssoc (refreshOk kube app fs m) k).isSome := by
  rw [refreshOk_lookup kube app fs m k hm hs]
  cases hmk : lookupAssoc m k with
  | none => simp [refreshSpecLookup, hin, hmk, hh]
  | some u =>
    rcases hst : u.state with _ | _ | _
    · simp [refreshSpecLookup, hin, hmk, hst, hh]
    · simp [refreshSpecLookup, hin, hmk, hst]
    · have hmem := mem_of_lookupAssoc m k u hmk
      have hcontra := hH (k, u) hmem hst
      rw [hin] at hcontra
      simp [hh] at hcontra

theorem refreshPass1_eq_self (fs : FullStatus) (kube : String → Option String)
    (entries : List (String × UnitStatus)) (m : UnitMap)
    (h : ∀ e ∈ entries, refreshObserve fs kube m e = m) :
    refreshPass1 fs kube entries m = m := by
  induction entries with
  | nil => rfl
  | cons e rest ih =>
    have he : refreshObserve fs kube m e = m := h e (List.mem_cons_self e rest)
    calc refreshPass1 fs kube (e :: rest) m
        = refreshPass1 fs kube rest (refreshObserve fs kube m e) := rfl
      _ = refreshPass1 fs kube rest m := by rw [he]
      _ = m := ih (fun e' he' => h e' (List.mem_cons_of_mem e he'))

theorem filterMap_pass2_eq_self (fs : FullStatus) (app : String)
    (l : List (String × Unit))
    (h : ∀ e ∈ l, refreshPass2Entry fs app e = some e) :
    l.filterMap (refreshPass2Entry fs app) = l := by
  induction l with
  | nil => rfl
  | cons e rest ih =>
    rw [List.filterMap_cons, h e (List.mem_cons_self e rest),
      ih (fun e' he' => h e' (List.mem_cons_of_mem e he'))]

/-- A unit map in which every tracked unit matches its snapshot entry (the
shape produced by one successful `refresh`, per `refreshOk_tracked_fields`)
and which tracks every active/idle snapshot unit is a fixed point of
`refreshOk`. -/
theorem refreshOk_stable (kube : String → Option String) (app : String)
    (fs : FullStatus) (m1 : UnitMap)
    (hnd1 : (m1.map Prod.fst).Nodup)
    (hs : ((fs.appUnits app).map Prod.fst).Nodup)
    (P1 : ∀ k u', lookupAssoc m1 k = some u' →
      ∃ us, lookupAssoc (fs.appUnits app) k = some us ∧
        u'.status = us ∧ u'.hostname = fs.machineHostname us.machine ∧
        u'.providerID = resolveProviderID kube (fs.machineHostname us.machine) ∧
        u'.state ≠ .InstanceDeleting ∧
        (u'.state = .InstanceCreating → isActiveIdle us = false))
    (P2 : ∀ k us, lookupAssoc (fs.appUnits app) k = some us →
      isActiveIdle us = true → (lookupAssoc m1 k).isSome) :
    refreshOk kube app fs m1 = m1 := by
  have hA : refreshPass1 fs kube (fs.appUnits app) m1 = m1 := by
    apply refreshPass1_eq_self
    intro e he
    obtain ⟨k, us⟩ := e
    have hin : lookupAssoc (fs.appUnits app) k = some us :=
      lookupAssoc_eq_of_mem _ _ _ hs he
    cases hmk : lookupAssoc m1 k with
    | none =>
      cases hh : isActiveIdle us with
      | false => simp [refreshObserve, hmk, hh]
      | true =>
        have hsome := P2 k us hin hh
        rw [hmk] at hsome
        simp at hsome
    | some u' =>
      obtain ⟨us', hin', hstat, hhost, hpid, -, -⟩ := P1 k u' hmk
      rw [hin] at hin'
      injection hin' with hus
      subst hus
      have hred : refreshObserve fs kube m1 (k, us) =
          setAssoc m1 k (updatedUnit u' us (fs.machineHostname us.machine)
            (resolveProviderID kube (fs.machineHostname us.machine))) := by
        simp [refreshObserve, hmk]
      rw [hred, ← hpid, ← hhost, ← hstat, updatedUnit_eq_self]
      exact setAssoc_eq_self m1 k u' hmk
  have hB : m1.filterMap (refreshPass2Entry fs app) = m1 := by
    apply filterMap_pass2_eq_self
    intro e he
    obtain ⟨k, u'⟩ := e
    have hmk : lookupAssoc m1 k = some u' := lookupAssoc_eq_of_mem _ _ _ hnd1 he
    obtain ⟨us, hin, hstat, -, -, hndel, himp⟩ := P1 k u' hmk
    rcases hst : u'.state with _ | _ | _
    · have hfalse : isActiveIdle u'.status = false := by rw [hstat]; exact himp hst
      simp [refreshPass2Entry, refreshPass2Unit, hin, hst, hfalse]
    · simp [refreshPass2Entry, refreshPass2Unit, hin, hst]
    · exact absurd hst hndel
  unfold refreshOk
  rw [hA, hB]

/-- Counterexample to C2 as stated: starting from a map holding one
`InstanceDeleting` unit whose ID the unchanged snapshot still reports
active/idle, the first `refresh` removes the unit (yielding the empty map)
and the second `refresh` against the same snapshot re-inserts it as
`InstanceRunning` — so the second call does change the map. -/
theorem refresh_not_idempotent_on_healthy_deleting :
    (refresh (fun _ => none) "kubernetes-worker"
        [("kubernetes-worker/0",
          ⟨.InstanceDeleting, "kubernetes-worker/0", "host-0", ⟨⟨"idle"⟩, ⟨"active"⟩, "0"⟩, ""⟩)]
        (.ok ⟨[("kubernetes-worker", ⟨[("kubernetes-worker/0", ⟨⟨"idle"⟩, ⟨"active"⟩, "0"⟩)]⟩)],
              [("0", ⟨"host-0"⟩)]⟩)).1 = [] ∧
    (refresh (fun _ => none) "kubernetes-worker"
        ((refresh (fun _ => none) "kubernetes-worker"
          [("kubernetes-worker/0",
            ⟨.InstanceDeleting, "kubernetes-worker/0", "host-0", ⟨⟨"idle"⟩, ⟨"active"⟩, "0"⟩, ""⟩)]
          (.ok ⟨[("kubernetes-worker", ⟨[("kubernetes-worker/0", ⟨⟨"idle"⟩, ⟨"active"⟩, "0"⟩)]⟩)],
                [("0", ⟨"host-0"⟩)]⟩)).1)
        (.ok ⟨[("kubernetes-worker", ⟨[("kubernetes-worker/0", ⟨⟨"idle"⟩, ⟨"active"⟩, "0"⟩)]⟩)],
              [("0", ⟨"host-0"⟩)]⟩)).1 ≠
      (refresh (fun _ => none) "kubernetes-worker"
        [("kubernetes-worker/0",
          ⟨.InstanceDeleting, "kubernetes-worker/0", "host-0", ⟨⟨"idle"⟩, ⟨"active"⟩, "0"⟩, ""⟩)]
        (.ok ⟨[("kubernetes-worker", ⟨[("kubernetes-worker/0", ⟨⟨"idle"⟩, ⟨"active"⟩, "0"⟩)]⟩)],
              [("0", ⟨"host-0"⟩)]⟩)).1 := by
  decide

/-- C2 (amended): two successive successful `refresh` (Reconcile) calls that
observe the same snapshot leave the map of the first call exactly unchanged,
provided no unit tracked at the start in phase `InstanceDeleting` is still
reported active/idle by that snapshot (without this proviso the first call
removes such a unit and the second re-inserts it, as the counterexample
shows). -/
theorem refresh_idempotent_without_healthy_deleting (kube : String → Option String)
    (app : String) (fs : FullStatus) (m : UnitMap)
    (hm : (m.map Prod.fst).Nodup)
    (hs : ((fs.appUnits app).map Prod.fst).Nodup)
    (hH : ∀ e ∈ m, e.2.state = .InstanceDeleting →
      (lookupAssoc (fs.appUnits app) e.1).all (fun x => ! isActiveIdle x) = true) :
    (refresh kube app ((refresh kube app m (.ok fs)).1) (.ok fs)).1 =
      (refresh kube app m (.ok fs)).1 := by
  show refreshOk kube app fs (refreshOk kube app fs m) = refreshOk kube app fs m
  apply refreshOk_stable
  · exact nodup_keys_refreshOk kube app fs m hm
  · exact hs
  · intro k u' h
    exact refreshOk_tracked_fields kube app fs m k u' hm hs h
  · intro k us hin hh
    exact refreshOk_keeps_healthy kube app fs m k us hm hs hin hh hH

/-- Witness for C2 (amended): a concrete map with one `InstanceRunning` unit
and one `InstanceCreating` unit reconciled twice against the same snapshot;
the hypotheses hold and the second pass is a no-op. -/
theorem refresh_idempotent_without_healthy_deleting_witness :
    (refresh (fun _ => some "provider-0") "kubernetes-worker"
        ((refresh (fun _ => some "provider-0") "kubernetes-worker"
          [("kubernetes-worker/0",
            ⟨.InstanceRunning, "kubernetes-worker/0", "host-0", ⟨⟨"idle"⟩, ⟨"active"⟩, "0"⟩, ""⟩),
           ("kubernetes-worker/1",
            ⟨.InstanceCreating, "kubernetes-worker/1", "", ⟨⟨"allocating"⟩, ⟨"waiting"⟩, "1"⟩, ""⟩)]
          (.ok ⟨[("kubernetes-worker",
                  ⟨[("kubernetes-worker/0", ⟨⟨"idle"⟩, ⟨"active"⟩, "0"⟩),
                    ("kubernetes-worker/1", ⟨⟨"executing"⟩, ⟨"waiting"⟩, "1"⟩)]⟩)],
                [("0", ⟨"host-0"⟩)]⟩)).1)
        (.ok ⟨[("kubernetes-worker",
                ⟨[("kubernetes-worker/0", ⟨⟨"idle"⟩, ⟨"active"⟩, "0"⟩),
                  ("kubernetes-worker/1", ⟨⟨"executing"⟩, ⟨"waiting"⟩, "1"⟩)]⟩)],
              [("0", ⟨"host-0"⟩)]⟩)).1 =
      (refresh (fun _ => some "provider-0") "kubernetes-worker"
        [("kubernetes-worker/0",
          ⟨.InstanceRunning, "kubernetes-worker/0", "host-0", ⟨⟨"idle"⟩, ⟨"active"⟩, "0"⟩, ""⟩),
         ("kubernetes-worker/1",
          ⟨.InstanceCreating, "kubernetes-worker/1", "", ⟨⟨"allocating"⟩, ⟨"waiting"⟩, "1"⟩, ""⟩)]
        (.ok ⟨[("kubernetes-worker",
                ⟨[("kubernetes-worker/0", ⟨⟨"idle"⟩, ⟨"active"⟩, "0"⟩),
                  ("kubernetes-worker/1", ⟨⟨"executing"⟩, ⟨"waiting"⟩, "1"⟩)]⟩)],
              [("0", ⟨"host-0"⟩)]⟩)).1 :=
  refresh_idempotent_without_healthy_deleting (fun _ => some "provider-0") "kubernetes-worker"
    ⟨[("kubernetes-worker",
       ⟨[("kubernetes-worker/0", ⟨⟨"idle"⟩, ⟨"active"⟩, "0"⟩),
         ("kubernetes-worker/1", ⟨⟨"executing"⟩, ⟨"waiting"⟩, "1"⟩)]⟩)],
      [("0", ⟨"host-0"⟩)]⟩
    [("kubernetes-worker/0",
      ⟨.InstanceRunning, "kubernetes-worker/0", "host-0", ⟨⟨"idle"⟩, ⟨"active"⟩, "0"⟩, ""⟩),
     ("kubernetes-worker/1",
      ⟨.InstanceCreating, "kubernetes-worker/1", "", ⟨⟨"allocating"⟩, ⟨"waiting"⟩, "1"⟩, ""⟩)]
    (by decide) (by decide) (by decide)

end JujuAutoscaler
